import Mathlib

set_option maxRecDepth 8192

/- Verification development for the PiPinPP repository.

The repository ships Python-binding examples, a build script and a markdown
link checker.  The GPIO/PWM/interrupt/bus runtime itself (the "core" of the
design document) is not part of this tree, so every definition about it below
is modelled from the design document and says so in its doc comment.  The
markdown link checker (scripts/check_markdown_links.py) is present in the
tree and is embedded directly from its source. -/

/-! ## Part 1: the hardware abstraction layer, modelled from the spec -/

/-- Modelled from the spec (section 3): the pin modes; the runtime source is
not in this tree.  `UNSET` is the state of a never-configured pin. -/
inductive PinMode
  | OUTPUT
  | INPUT
  | INPUT_PULLUP
  | INPUT_PULLDOWN
  | UNSET
  deriving DecidableEq

/-- Modelled from the spec (section 6): digital line levels. -/
inductive PinLevel
  | HIGH
  | LOW
  deriving DecidableEq

/-- Modelled from the spec (sections 7 and 4.1): the error taxonomy of
section 7, plus `NotConfigured` which section 4.1 names as the failure of
digital I/O on an unset or mismatched pin. -/
inductive Err
  | InvalidPin
  | InvalidState
  | NotInitialized
  | LineBusy
  | DeviceIOError
  | Timeout
  | DroppedEvents
  | NotConfigured
  deriving DecidableEq

/-- Modelled from the spec (section 3): interrupt edge selectors. -/
inductive Edge
  | RISING
  | FALLING
  | CHANGE
  deriving DecidableEq

/-- Modelled from the spec (section 3): a software PWM channel, at most one
per pin. -/
structure PwmChannel where
  duty : Nat
  periodMicros : Nat
  running : Bool
  deriving DecidableEq

/-- Modelled from the spec (section 3): an interrupt binding, at most one per
pin.  The user callback is opaque to the state model and is not carried. -/
structure InterruptBinding where
  edge : Edge
  enabled : Bool
  deriving DecidableEq

/-- Modelled from the spec (section 3): the per-pin registry entry. -/
structure PinState where
  mode : PinMode
  lastLevel : PinLevel
  deriving DecidableEq

/-- Modelled from the spec (sections 2, 3, 5): the process-wide GPIO state —
the pin registry plus the PWM channels and interrupt bindings owned by pins.
`numPins` is the size of the validated pin range (the spec fixes no concrete
bound); `busyLine` records which kernel lines are held incompatibly by other
processes. -/
structure Hal where
  numPins : Nat
  busyLine : Nat → Bool
  pins : Nat → PinState
  pwm : Nat → Option PwmChannel
  intr : Nat → Option InterruptBinding

/-- Modelled from the spec (section 4.1): the pin-range validation performed
by `pinMode`. -/
def validPin (s : Hal) (p : Nat) : Bool :=
  p < s.numPins

/-- Modelled from the spec (sections 4.1 and 5): `pinMode` validates the pin
range (`InvalidPin`), fails `LineBusy` when the kernel line is held
incompatibly elsewhere, and otherwise assigns the mode after synchronously
tearing down any active PWM channel or interrupt binding on that pin; in this
sequential model the teardown is the removal of the channel and binding in
the returned state. -/
def pinMode (s : Hal) (p : Nat) (m : PinMode) : Except Err Hal :=
  if ¬ validPin s p then Except.error Err.InvalidPin
  else if s.busyLine p then Except.error Err.LineBusy
  else Except.ok { s with
    pins := Function.update s.pins p { s.pins p with mode := m },
    pwm := Function.update s.pwm p none,
    intr := Function.update s.intr p none }

/-- Modelled from the spec (section 4.1): `digitalWrite` drives the held line
in O(1); it fails `NotConfigured` when the pin's mode is unset or mismatched
(anything other than `OUTPUT`). -/
def digitalWrite (s : Hal) (p : Nat) (l : PinLevel) : Except Err Hal :=
  if (s.pins p).mode = PinMode.OUTPUT then
    Except.ok { s with pins := Function.update s.pins p { s.pins p with lastLevel := l } }
  else Except.error Err.NotConfigured

/-- Modelled from the spec (section 4.1): `digitalRead` through the held line
handle; it fails `NotConfigured` when the mode is `UNSET`.  The physical line
value is abstracted by the registry's `lastLevel` (a loop-back reading). -/
def digitalRead (s : Hal) (p : Nat) : Except Err PinLevel :=
  if (s.pins p).mode = PinMode.UNSET then Except.error Err.NotConfigured
  else Except.ok (s.pins p).lastLevel

/-- Modelled from the spec (sections 4.2 and 6): the default software PWM
period; the spec fixes no concrete value, only that one exists per channel. -/
def defaultPeriodMicros : Nat := 1000

/-- Modelled from the spec (sections 3, 4.2): `analogWrite` attaches (or
re-parameterises) the pin's software PWM channel; attach-time contention is
resolved solely through the registry mode check, and the duty argument is
the range 0..255 of the API. -/
def analogWrite (s : Hal) (p : Nat) (duty : Nat) : Except Err Hal :=
  if (s.pins p).mode ≠ PinMode.OUTPUT then Except.error Err.NotConfigured
  else if 255 < duty then Except.error Err.InvalidState
  else Except.ok { s with
    pwm := Function.update s.pwm p
      (some { duty := duty, periodMicros := defaultPeriodMicros, running := true }) }

/-- Modelled from the spec (sections 4.2 and 9): `noAnalogWrite` idempotently
stops and destroys the pin's channel and never fails.  The spec leaves the
resulting line level intentionally unspecified; this model realises one
admissible choice, leaving `lastLevel` wherever it was. -/
def noAnalogWrite (s : Hal) (p : Nat) : Except Err Hal :=
  Except.ok { s with pwm := Function.update s.pwm p none }

/-- Modelled from the spec (section 4.3): the input modes in which an
interrupt may be attached. -/
def isInputMode : PinMode → Bool
  | PinMode.INPUT => true
  | PinMode.INPUT_PULLUP => true
  | PinMode.INPUT_PULLDOWN => true
  | _ => false

/-- Modelled from the spec (section 4.3): `attachInterrupt` requires an input
mode (else `InvalidState`) and replaces any prior binding for the pin. -/
def attachInterrupt (s : Hal) (p : Nat) (e : Edge) : Except Err Hal :=
  if isInputMode (s.pins p).mode then
    Except.ok { s with intr := Function.update s.intr p (some { edge := e, enabled := true }) }
  else Except.error Err.InvalidState

/-- Modelled from the spec (section 4.3): `detachInterrupt` removes the
binding and stops the watching context. -/
def detachInterrupt (s : Hal) (p : Nat) : Except Err Hal :=
  Except.ok { s with intr := Function.update s.intr p none }

/-- Modelled from the spec (section 6): the core API calls, as a syntax of
operations for stating temporal properties over call sequences. -/
inductive GpioOp
  | opPinMode (p : Nat) (m : PinMode)
  | opDigitalWrite (p : Nat) (l : PinLevel)
  | opDigitalRead (p : Nat)
  | opAnalogWrite (p : Nat) (d : Nat)
  | opNoAnalogWrite (p : Nat)
  | opAttachInterrupt (p : Nat) (e : Edge)
  | opDetachInterrupt (p : Nat)
  deriving DecidableEq

/-- Modelled from the spec (section 7): configuration errors surface to the
call site and leave the state unchanged; a step applies one API call and
keeps the prior state on failure. -/
def step (s : Hal) : GpioOp → Hal
  | GpioOp.opPinMode p m => ((pinMode s p m).toOption).getD s
  | GpioOp.opDigitalWrite p l => ((digitalWrite s p l).toOption).getD s
  | GpioOp.opDigitalRead _ => s
  | GpioOp.opAnalogWrite p d => ((analogWrite s p d).toOption).getD s
  | GpioOp.opNoAnalogWrite p => ((noAnalogWrite s p).toOption).getD s
  | GpioOp.opAttachInterrupt p e => ((attachInterrupt s p e).toOption).getD s
  | GpioOp.opDetachInterrupt p => ((detachInterrupt s p).toOption).getD s

/-- A sequence of API calls applied in order. -/
def run (s : Hal) (ops : List GpioOp) : Hal :=
  ops.foldl step s

/-- The calls that can stop or reconfigure pin `p`'s PWM channel: a mode
change, a new `analogWrite`, or `noAnalogWrite` on that same pin. -/
def touchesPwm : GpioOp → Nat → Bool
  | GpioOp.opPinMode q _, p => q = p
  | GpioOp.opAnalogWrite q _, p => q = p
  | GpioOp.opNoAnalogWrite q, p => q = p
  | _, _ => false

/-- Modelled from the spec (section 4.2): the emulated duty-cycle square wave
with high-time `duty/255 * period`; the level observed at microsecond `t` of
a running channel. -/
def pwmLevelAt (duty period t : Nat) : PinLevel :=
  if t % period < duty * period / 255 then PinLevel.HIGH else PinLevel.LOW

/-- The level an external sampler observes on pin `p` at time `t`: the PWM
waveform while a channel is running, the registry's last driven level
otherwise. -/
def observe (s : Hal) (p : Nat) (t : Nat) : PinLevel :=
  match s.pwm p with
  | some ch => if ch.running then pwmLevelAt ch.duty ch.periodMicros t else (s.pins p).lastLevel
  | none => (s.pins p).lastLevel

/-! ### Wire.scan, modelled from the spec -/

/-- Modelled from the spec (sections 4.4 and 7): the outcome of one
zero-length-write ACK probe: acknowledged, not acknowledged, or a transient
I/O failure of the probe transfer. -/
inductive ProbeOutcome
  | ack
  | nack
  | ioFail
  deriving DecidableEq

/-- Modelled from the spec (section 4.4): the conventional 7-bit address
range 0x03 through 0x77 that `scan()` iterates, in order. -/
def scanAddrs : List Nat := List.range' 3 117

/-- Modelled from the spec (sections 4.4 and 7): `Wire.scan` issues one
zero-length write probe per address of `scanAddrs` and keeps the addresses
that acknowledge; a transient I/O failure during a probe is interpreted as
"no device at that address", not propagated. -/
def Wire.scan (bus : Nat → ProbeOutcome) : List Nat :=
  scanAddrs.filter (fun a => bus a = ProbeOutcome.ack)

/-- A simulated bus with devices at addresses 0x23 and 0x68 only. -/
def exampleBus : Nat → ProbeOutcome :=
  fun a => if a = 0x23 ∨ a = 0x68 then ProbeOutcome.ack else ProbeOutcome.nack

/-! ### Bus handles, modelled from the spec -/

/-- Modelled from the spec (sections 3 and 4.4): the I2C (Wire) handle.
`isOpen` is whether `begin()` has succeeded and `end()` has not followed;
`txAddr`/`txBuf` hold the buffered addressed write, `rxBuf` the bytes read in
by `requestFrom`, and `busHeld` whether a repeated-start left the bus held. -/
structure WireState where
  isOpen : Bool
  txAddr : Option Nat
  txBuf : List Nat
  rxBuf : List Nat
  busHeld : Bool
  deriving DecidableEq

/-- The Wire handle as `begin()` creates it. -/
def Wire.freshOpen : WireState :=
  { isOpen := true, txAddr := none, txBuf := [], rxBuf := [], busHeld := false }

/-- Modelled from the spec (section 4.4): `Wire.begin()` opens the bus
adapter.  The spec requires repeated `begin()` to be a defined no-op or a
consistently documented error; this model realises the defined no-op, for
every bus alike.  (Source name `begin`.) -/
def Wire.beginOp (w : WireState) : Except Err WireState :=
  if w.isOpen then Except.ok w else Except.ok Wire.freshOpen

/-- Modelled from the spec (sections 3 and 4.4): `Wire.end()` destroys the
handle; further use fails closed.  (Source name `end`.) -/
def Wire.endOp (_ : WireState) : WireState :=
  { isOpen := false, txAddr := none, txBuf := [], rxBuf := [], busHeld := false }

/-- Modelled from the spec (section 4.4): `Wire.scan()` on the handle; it
fails `NotInitialized` before `begin()` and otherwise probes the bus. -/
def Wire.scanOp (w : WireState) (bus : Nat → ProbeOutcome) : Except Err (List Nat) :=
  if w.isOpen then Except.ok (Wire.scan bus) else Except.error Err.NotInitialized

/-- Modelled from the spec (section 4.4): start a buffered write to `a`. -/
def Wire.beginTransmission (w : WireState) (a : Nat) : Except Err WireState :=
  if w.isOpen then Except.ok { w with txAddr := some a, txBuf := [] }
  else Except.error Err.NotInitialized

/-- Modelled from the spec (section 4.4): append one byte to the write
buffer. -/
def Wire.write (w : WireState) (b : Nat) : Except Err WireState :=
  if w.isOpen then Except.ok { w with txBuf := w.txBuf ++ [b] }
  else Except.error Err.NotInitialized

/-- Modelled from the spec (section 4.4): flush the buffered write;
`stopBit = false` holds the bus (repeated start) rather than releasing it. -/
def Wire.endTransmission (w : WireState) (stopBit : Bool) : Except Err WireState :=
  if w.isOpen then Except.ok { w with txAddr := none, txBuf := [], busHeld := !stopBit }
  else Except.error Err.NotInitialized

/-- Modelled from the spec (section 4.4): the addressed read; `dev` is the
simulated device memory per address. -/
def Wire.requestFrom (w : WireState) (dev : Nat → List Nat) (a cnt : Nat) :
    Except Err WireState :=
  if w.isOpen then Except.ok { w with rxBuf := (dev a).take cnt, busHeld := false }
  else Except.error Err.NotInitialized

/-- Modelled from the spec (section 4.4): pop one received byte; an exhausted
receive buffer times out at the read bound. -/
def Wire.read (w : WireState) : Except Err (Nat × WireState) :=
  if w.isOpen then
    match w.rxBuf with
    | [] => Except.error Err.Timeout
    | b :: rest => Except.ok (b, { w with rxBuf := rest })
  else Except.error Err.NotInitialized

/-- Modelled from the spec (sections 3 and 4.4): the SPI handle; `clockDiv`
is the selected entry of the enumerated legacy clock-rate table. -/
structure SPIState where
  isOpen : Bool
  clockDiv : Nat
  deriving DecidableEq

/-- Modelled from the spec (section 4.4): `SPI.begin()`; repeated `begin()`
is the same defined no-op as for the other buses.  (Source name `begin`.) -/
def SPI.beginOp (s : SPIState) : Except Err SPIState :=
  if s.isOpen then Except.ok s else Except.ok { isOpen := true, clockDiv := 4 }

/-- Modelled from the spec: `SPI.end()` destroys the handle.
(Source name `end`.) -/
def SPI.endOp (_ : SPIState) : SPIState :=
  { isOpen := false, clockDiv := 4 }

/-- Modelled from the spec (section 4.4): select a legacy clock divider from
the enumerated table (represented by its index). -/
def SPI.setClockDivider (s : SPIState) (d : Nat) : Except Err SPIState :=
  if s.isOpen then Except.ok { s with clockDiv := d }
  else Except.error Err.NotInitialized

/-- Modelled from the spec (section 4.4): a synchronous full-duplex
single-byte exchange; `dev` maps the byte sent to the byte received. -/
def SPI.transfer (s : SPIState) (dev : Nat → Nat) (b : Nat) : Except Err Nat :=
  if s.isOpen then Except.ok (dev b) else Except.error Err.NotInitialized

/-- Modelled from the spec (sections 3 and 4.4): the Serial handle with its
outgoing and incoming byte streams (as strings). -/
structure SerialState where
  isOpen : Bool
  outBuf : String
  inBuf : String
  deriving DecidableEq

/-- Modelled from the spec (section 4.4): `Serial.begin(baud, devicePath)`
opens a line discipline on the named device; repeated `begin()` is the same
defined no-op as for the other buses.  (Source name `begin`.) -/
def Serial.beginOp (st : SerialState) (_baud : Nat) (_devicePath : String) :
    Except Err SerialState :=
  if st.isOpen then Except.ok st
  else Except.ok { isOpen := true, outBuf := "", inBuf := "" }

/-- Modelled from the spec: `Serial.end()` destroys the handle.
(Source name `end`.) -/
def Serial.endOp (_ : SerialState) : SerialState :=
  { isOpen := false, outBuf := "", inBuf := "" }

/-- Modelled from the spec (section 4.4): buffer a string out. -/
def Serial.print (st : SerialState) (msg : String) : Except Err SerialState :=
  if st.isOpen then Except.ok { st with outBuf := st.outBuf ++ msg }
  else Except.error Err.NotInitialized

/-- Modelled from the spec (section 4.4): buffer a string out, newline
terminated. -/
def Serial.println (st : SerialState) (msg : String) : Except Err SerialState :=
  if st.isOpen then Except.ok { st with outBuf := st.outBuf ++ msg ++ "\n" }
  else Except.error Err.NotInitialized

/-- Modelled from the spec (section 4.4): non-blocking poll for pending
input. -/
def Serial.available (st : SerialState) : Except Err Bool :=
  if st.isOpen then Except.ok (!st.inBuf.isEmpty)
  else Except.error Err.NotInitialized

/-- Modelled from the spec (section 4.4): read one byte; an empty stream
blocks up to the bound and times out. -/
def Serial.read (st : SerialState) : Except Err (Char × SerialState) :=
  if st.isOpen then
    match st.inBuf.data with
    | [] => Except.error Err.Timeout
    | c :: rest => Except.ok (c, { st with inBuf := String.mk rest })
  else Except.error Err.NotInitialized

/-- Split a character list at the first occurrence of `d`, returning the
parts before and after it, or nothing when `d` does not occur. -/
def takeUntilChar (d : Char) : List Char → Option (List Char × List Char)
  | [] => none
  | c :: cs =>
    if c = d then some ([], cs)
    else (takeUntilChar d cs).map (fun q => (c :: q.1, q.2))

/-- Modelled from the spec (section 4.4): read up to the delimiter, blocking
up to a bound; a delimiter that never arrives times out. -/
def Serial.readStringUntil (st : SerialState) (d : Char) :
    Except Err (String × SerialState) :=
  if st.isOpen then
    match takeUntilChar d st.inBuf.data with
    | some (before, rest) => Except.ok (String.mk before, { st with inBuf := String.mk rest })
    | none => Except.error Err.Timeout
  else Except.error Err.NotInitialized

/-! ## Part 2: the markdown link checker, embedded from
scripts/check_markdown_links.py -/

/-- The backtick character, used as the code-span delimiter by the checker's
regular expressions. -/
def btChar : Char := Char.ofNat 96

/-- Three backticks: the fenced-code-block delimiter. -/
def tick3 : List Char := [btChar, btChar, btChar]

/-- Splits a character list on every occurrence of the three-backtick
delimiter, left to right and non-overlapping, accumulating the current
segment in reverse in `acc` — the behaviour of `str.split` on that
delimiter. -/
def tickSegsAux : List Char → List Char → List (List Char)
  | acc, [] => [acc.reverse]
  | acc, c :: d :: e :: cs =>
    if c = btChar ∧ d = btChar ∧ e = btChar then acc.reverse :: tickSegsAux [] cs
    else tickSegsAux (c :: acc) (d :: e :: cs)
  | acc, c :: cs => tickSegsAux (c :: acc) cs

/-- Reassembles the segments as the non-greedy dot-all substitution of the
fenced-block pattern (check_markdown_links.py:37) leaves them: delimiters
are consumed in pairs with everything between them dropped; a final unpaired
delimiter has no closing match and stays in the text. -/
def dropCodeSegs : List (List Char) → List (List Char)
  | [] => []
  | [a] => [a]
  | [a, b] => [a, tick3, b]
  | a :: _ :: rest => a :: dropCodeSegs rest

/-- Embeds the triple-backtick code-block removal of `extract_links`
(check_markdown_links.py:37). -/
def removeTicks (cs : List Char) : List Char :=
  (dropCodeSegs (tickSegsAux [] cs)).flatten

/-- Embeds the inline-code removal (check_markdown_links.py:40, the pattern
"backtick, one or more non-backticks, backtick") as a left-to-right scan:
`none` is outside any candidate span; `some pend` means a backtick was seen
and `pend` holds the non-backtick characters read since, in reverse.  A span
with at least one character between two backticks is dropped; a backtick
immediately followed by another is emitted and the scan restarts at the
second; an unclosed opener is emitted literally. -/
def inlineAux : Option (List Char) → List Char → List Char
  | none, [] => []
  | none, c :: cs => if c = btChar then inlineAux (some []) cs else c :: inlineAux none cs
  | some pend, [] => btChar :: pend.reverse
  | some pend, c :: cs =>
    if c = btChar then
      match pend with
      | [] => btChar :: inlineAux (some []) cs
      | _ => inlineAux none cs
    else inlineAux (some (c :: pend)) cs

/-- Scanner state for the markdown-link pattern of `extract_links`
(check_markdown_links.py:44), "bracketed non-empty text immediately followed
by parenthesised non-empty url".  `stTxt t` holds the link text read so far
(reversed) after an opening bracket; `stPar t` has just read the closing
bracket of a non-empty text and expects an opening parenthesis; `stUrl t u`
accumulates the url (reversed). -/
inductive LinkSt
  | stOut
  | stTxt (t : List Char)
  | stPar (t : List Char)
  | stUrl (t : List Char) (u : List Char)

/-- Embeds the `finditer` of the link pattern: leftmost non-overlapping
matches, scanning resuming one character after the opening bracket of a
failed attempt.  Because the text run admits every character but the closing
bracket and the url run every character but the closing parenthesis,
re-scanning the characters of a failed attempt can only fail again until the
character that caused the failure, which the transitions below therefore
process directly in the state that re-scan would reach. -/
def linksAux : LinkSt → List Char → List (String × String)
  | _, [] => []
  | LinkSt.stOut, c :: cs =>
    if c = '[' then linksAux (LinkSt.stTxt []) cs else linksAux LinkSt.stOut cs
  | LinkSt.stTxt t, c :: cs =>
    if c = ']' then
      match t with
      | [] => linksAux LinkSt.stOut cs
      | _ => linksAux (LinkSt.stPar t) cs
    else linksAux (LinkSt.stTxt (c :: t)) cs
  | LinkSt.stPar t, c :: cs =>
    if c = '(' then linksAux (LinkSt.stUrl t []) cs
    else if c = '[' then linksAux (LinkSt.stTxt []) cs
    else linksAux LinkSt.stOut cs
  | LinkSt.stUrl t u, c :: cs =>
    if c = ')' then
      match u with
      | [] => linksAux LinkSt.stOut cs
      | _ => (String.mk t.reverse, String.mk u.reverse) :: linksAux LinkSt.stOut cs
    else linksAux (LinkSt.stUrl t (c :: u)) cs

/-- Embeds `extract_links` (check_markdown_links.py:22-55): remove fenced
code blocks, remove inline code, then collect every markdown link match as a
`(text, url)` pair.  The line-number bookkeeping of lines 47-52 feeds only
the printed report and is not modelled. -/
def extract_links (content : String) : List (String × String) :=
  linksAux LinkSt.stOut (inlineAux none (removeTicks content.data))

/-- Splits a character list on every occurrence of the character `d`,
accumulating the current segment in reverse — `str.split(d)`. -/
def splitOnCharAux (d : Char) : List Char → List Char → List (List Char)
  | acc, [] => [acc.reverse]
  | acc, c :: cs =>
    if c = d then acc.reverse :: splitOnCharAux d [] cs
    else splitOnCharAux d (c :: acc) cs

/-- Embeds line 71 of check_markdown_links.py, the head of the url split at
the hash sign: the prefix of the url before its first hash, the whole url
when there is none. -/
def stripAnchor (u : String) : String :=
  match splitOnCharAux '#' [] u.data with
  | [] => ""
  | s :: _ => String.mk s

/-- `str.startswith`. -/
def strStartsWith (s p : String) : Bool :=
  p.data.isPrefixOf s.data

/-- An absolute POSIX path as pathlib yields it, as the list of components
after the filesystem root. -/
abbrev AbsPath := List String

/-- The components of a path string: split on the path separator. -/
def splitComps (s : String) : List String :=
  (splitOnCharAux '/' [] s.data).map String.mk

/-- The lexical normalisation performed by `Path.resolve()` in the absence
of symbolic links (the checker resolves targets that may not exist, where
pathlib falls back to exactly this lexical walk): empty and `.` components
vanish, `..` pops the last component and is a no-op at the root. -/
def resolvePath (comps : List String) : AbsPath :=
  comps.foldl
    (fun acc c =>
      if c = "" ∨ c = "." then acc
      else if c = ".." then acc.dropLast
      else acc ++ [c]) []

/-- The pathlib join of line 87: a url that is itself absolute replaces the
base entirely. -/
def pyJoin (base : AbsPath) (url : String) : List String :=
  if strStartsWith url "/" then splitComps url else base ++ splitComps url

/-- Embeds `resolve_link` (check_markdown_links.py:58-89): strip the anchor,
classify external / mailto / anchor-only urls, and resolve the rest against
the source file's parent directory. -/
def resolve_link (source_file : AbsPath) (link_url : String) : Option AbsPath × String :=
  let u := stripAnchor link_url
  if strStartsWith u "http://" || strStartsWith u "https://" || strStartsWith u "ftp://" then
    (none, "external")
  else if strStartsWith u "mailto:" then (none, "mailto")
  else if u = "" then (none, "anchor-only")
  else (some (resolvePath (pyJoin source_file.dropLast u)), "local")

/-- `Path.relative_to` (check_markdown_links.py:151,162,175): defined when
`root` is a leading sequence of components of `p`, and a `ValueError`
(modelled as `none`) otherwise. -/
def relativeTo (p root : AbsPath) : Option (List String) :=
  if root.isPrefixOf p then some (p.drop root.length) else none

/-- One markdown file the checker visits: its path components relative to
the repository root, and its content. -/
structure MdFile where
  relParts : List String
  content : String

/-- The checker's input as `main` gathers it (check_markdown_links.py:94-106):
the resolved repository root, the markdown files found under `docs/` together
with the top-level `README.md` when present, and the filesystem existence
predicate consulted for resolved link targets. -/
structure Repo where
  rootAbs : AbsPath
  mdFiles : List MdFile
  fileExists : AbsPath → Bool

/-- One entry of `broken_links` (check_markdown_links.py:119-126), keeping
the fields the control flow consults. -/
structure BrokenLink where
  srcRel : List String
  url : String
  target : AbsPath

/-- The absolute path of a visited markdown file. -/
def fileAbs (r : Repo) (f : MdFile) : AbsPath :=
  r.rootAbs ++ f.relParts

/-- One iteration of the link-checking loop (check_markdown_links.py:112-126):
a link contributes a broken-link record exactly when it resolves as a local
link and its target does not exist. -/
def brokenOf (r : Repo) (f : MdFile) (tu : String × String) : Option BrokenLink :=
  match resolve_link (fileAbs r f) tu.2 with
  | (some t, tag) =>
    if tag = "local" then
      (if r.fileExists t then none
       else some { srcRel := f.relParts, url := tu.2, target := t })
    else none
  | (none, _) => none

/-- The broken links one file contributes. -/
def brokenIn (r : Repo) (f : MdFile) : List BrokenLink :=
  (extract_links f.content).filterMap (brokenOf r f)

/-- `broken_links` after the whole loop of lines 109-126.  `main` visits the
files in sorted order; the order affects only the printed report, never
which records exist, so the model visits them in list order. -/
def allBroken (r : Repo) : List BrokenLink :=
  (r.mdFiles.map (brokenIn r)).flatten

/-- The exception `main` can let escape. -/
inductive PyExc
  | valueError
  deriving DecidableEq

/-- Embeds the control flow of `main` (check_markdown_links.py:92-185) after
the links are gathered: no broken links prints the success report and
returns 0; otherwise the broken-links report runs, converting each source
path (line 151, unguarded, but sources are constructed under the root) and
each target path (line 162, guarded, hence never raising), and then the
summary loop converts each target path again (line 175) with no guard, so a
target outside the repository root escapes as a `ValueError`; only if none
does is 1 returned.  Printing itself is not modelled, only the escaping
exception and the exit code. -/
def mainResult (r : Repo) : Except PyExc Nat :=
  if (allBroken r).isEmpty then Except.ok 0
  else if (allBroken r).any (fun b => (relativeTo (r.rootAbs ++ b.srcRel) r.rootAbs).isNone) then
    Except.error PyExc.valueError
  else if (allBroken r).any (fun b => (relativeTo b.target r.rootAbs).isNone) then
    Except.error PyExc.valueError
  else Except.ok 1

/-- A repository with one docs page whose only link escapes the repository
root and is broken: the page links two levels above the root, so the target
resolves outside it. -/
def repoC8 : Repo :=
  { rootAbs := ["repo"]
  , mdFiles := [{ relParts := ["docs", "a.md"], content := "see [x](../../outside.md)" }]
  , fileExists := fun _ => false }

/-- A repository with one docs page holding a broken local link inside the
root, an external link and an anchor-only link. -/
def repoC9 : Repo :=
  { rootAbs := ["repo"]
  , mdFiles :=
      [{ relParts := ["docs", "a.md"]
       , content := "[a](missing.md) then [b](https://example.com/x) then [c](#frag)" }]
  , fileExists := fun _ => false }

/-! ## Concrete states used by the witnesses -/

/-- A small GPIO state: eight pins, no busy lines, everything unset. -/
def halBase : Hal :=
  { numPins := 8
  , busyLine := fun _ => false
  , pins := fun _ => { mode := PinMode.UNSET, lastLevel := PinLevel.LOW }
  , pwm := fun _ => none
  , intr := fun _ => none }

/-- `halBase` after `pinMode(2, OUTPUT)`. -/
def halOut : Hal := ((pinMode halBase 2 PinMode.OUTPUT).toOption).getD halBase

/-- `halOut` after `analogWrite(2, 0)`. -/
def halPwm0 : Hal := ((analogWrite halOut 2 0).toOption).getD halOut

/-- `halOut` after `analogWrite(2, 255)`. -/
def halPwm255 : Hal := ((analogWrite halOut 2 255).toOption).getD halOut

/-- `halPwm0` after `noAnalogWrite(2)`. -/
def halStopped : Hal := ((noAnalogWrite halPwm0 2).toOption).getD halPwm0

/-- `halPwm0` after reconfiguring pin 2 as an input. -/
def halReconf : Hal := ((pinMode halPwm0 2 PinMode.INPUT).toOption).getD halPwm0

/-- A Wire handle before `begin()` (or after `end()`). -/
def wireClosed : WireState :=
  { isOpen := false, txAddr := none, txBuf := [], rxBuf := [], busHeld := false }

/-- An SPI handle before `begin()`. -/
def spiClosed : SPIState := { isOpen := false, clockDiv := 4 }

/-- A Serial handle before `begin()`. -/
def serialClosed : SerialState := { isOpen := false, outBuf := "", inBuf := "" }

/-- An open SPI handle. -/
def spiOpen : SPIState := { isOpen := true, clockDiv := 4 }

/-- An open Serial handle. -/
def serialOpen : SerialState := { isOpen := true, outBuf := "", inBuf := "" }

/-! ## Theorems -/

theorem scanAddrs_sorted : List.Sorted (· < ·) scanAddrs := by decide

theorem scanAddrs_nodup : scanAddrs.Nodup := by decide

theorem mem_scanAddrs {a : Nat} : a ∈ scanAddrs ↔ 0x03 ≤ a ∧ a ≤ 0x77 := by
  unfold scanAddrs
  rw [List.mem_range'_1]
  omega

/-- Claim C1: `Wire.scan` probes exactly the 7-bit addresses 0x03 through
0x77 (each address once, as the probe multiset `scanAddrs` shows) and
returns the acknowledging addresses in strictly ascending order with no
duplicates — an address is in the result exactly when it is in range and its
probe acknowledged, so a transient I/O failure counts as no device and a bus
where nothing acknowledges yields the empty sequence; on the simulated bus
with devices at 0x23 and 0x68 only, the result is exactly [0x23, 0x68]. -/
theorem wire_scan_correct (bus : Nat → ProbeOutcome) :
    List.Sorted (· < ·) (Wire.scan bus) ∧
    (Wire.scan bus).Nodup ∧
    (∀ a, a ∈ Wire.scan bus ↔ 0x03 ≤ a ∧ a ≤ 0x77 ∧ bus a = ProbeOutcome.ack) ∧
    (∀ a, scanAddrs.count a = if 0x03 ≤ a ∧ a ≤ 0x77 then 1 else 0) ∧
    ((∀ a, bus a ≠ ProbeOutcome.ack) → Wire.scan bus = []) ∧
    Wire.scan exampleBus = [0x23, 0x68] := by
  refine ⟨scanAddrs_sorted.filter _, scanAddrs_nodup.filter _, ?_, ?_, ?_, by decide⟩
  · intro a
    rw [Wire.scan, List.mem_filter, mem_scanAddrs, decide_eq_true_iff]
    tauto
  · intro a
    by_cases h : 0x03 ≤ a ∧ a ≤ 0x77
    · rw [if_pos h]
      exact List.count_eq_one_of_mem scanAddrs_nodup (mem_scanAddrs.mpr h)
    · rw [if_neg h, List.count_eq_zero]
      exact fun hmem => h (mem_scanAddrs.mp hmem)
  · intro h
    rw [Wire.scan, List.filter_eq_nil_iff]
    intro a _
    simpa using h a

/-- Witness for C1 at the simulated example bus. -/
theorem wire_scan_correct_witness : Wire.scan exampleBus = [0x23, 0x68] :=
  (wire_scan_correct exampleBus).2.2.2.2.2

/-- Claim C3: a successful `pinMode(pin, mode)` followed immediately by a
query of that pin's mode reports exactly the mode just set; `pinMode` on an
out-of-range pin fails with `InvalidPin` and sets no mode — the state after
the failed call is the state before it. -/
theorem pinMode_sets_mode (s s' : Hal) (p : Nat) (m : PinMode) :
    (pinMode s p m = Except.ok s' → (s'.pins p).mode = m) ∧
    (validPin s p = false →
      pinMode s p m = Except.error Err.InvalidPin ∧
      step s (GpioOp.opPinMode p m) = s) := by
  constructor
  · intro h
    unfold pinMode at h
    split at h
    · simp at h
    split at h
    · simp at h
    · injection h with h
      subst h
      simp [Function.update_same]
  · intro h
    have herr : pinMode s p m = Except.error Err.InvalidPin := by
      unfold pinMode
      rw [if_pos (by simp [h])]
    refine ⟨herr, ?_⟩
    show ((pinMode s p m).toOption).getD s = s
    rw [herr]
    rfl

/-- Witness for C3: setting pin 2 of the small state to OUTPUT reports
OUTPUT back, and pin 9 is out of range on eight pins. -/
theorem pinMode_sets_mode_witness :
    pinMode halBase 2 PinMode.OUTPUT = Except.ok halOut ∧
    (halOut.pins 2).mode = PinMode.OUTPUT ∧
    validPin halBase 9 = false ∧
    pinMode halBase 9 PinMode.OUTPUT = Except.error Err.InvalidPin :=
  ⟨rfl, (pinMode_sets_mode halBase halOut 2 PinMode.OUTPUT).1 rfl, rfl,
    ((pinMode_sets_mode halBase halBase 9 PinMode.OUTPUT).2 rfl).1⟩

/-- Claim C4: `pinMode` tears down any PWM channel or interrupt binding the
pin owned before reassigning the mode, and in this sequential model the call
returns only with the teardown already applied: after any successful
`pinMode` the pin has no PWM channel and no interrupt binding. -/
theorem pinMode_tears_down (s s' : Hal) (p : Nat) (m : PinMode)
    (h : pinMode s p m = Except.ok s') :
    s'.pwm p = none ∧ s'.intr p = none := by
  unfold pinMode at h
  split at h
  · simp at h
  split at h
  · simp at h
  · injection h with h
    subst h
    simp [Function.update_same]

/-- Witness for C4: pin 2 owns a running channel in `halPwm0`, and after
reconfiguring it as an input it owns neither channel nor binding. -/
theorem pinMode_tears_down_witness :
    halPwm0.pwm 2 = some { duty := 0, periodMicros := 1000, running := true } ∧
    pinMode halPwm0 2 PinMode.INPUT = Except.ok halReconf ∧
    halReconf.pwm 2 = none ∧ halReconf.intr 2 = none :=
  ⟨rfl, rfl, (pinMode_tears_down halPwm0 halReconf 2 PinMode.INPUT rfl).1,
    (pinMode_tears_down halPwm0 halReconf 2 PinMode.INPUT rfl).2⟩

/-- Claim C5: `digitalWrite` and `digitalRead` fail with `NotConfigured`
whenever the pin's mode is `UNSET` or mismatched with the operation (a write
anywhere but OUTPUT), and otherwise succeed through the held line handle.
The code deciding the error name is not in this tree; the model follows the
spec's section 4.1, which says `NotConfigured` even though the section 7
taxonomy omits that name. -/
theorem digital_mode_guard (s : Hal) (p : Nat) (l : PinLevel) :
    ((s.pins p).mode ≠ PinMode.OUTPUT →
      digitalWrite s p l = Except.error Err.NotConfigured) ∧
    ((s.pins p).mode = PinMode.OUTPUT → ∃ s', digitalWrite s p l = Except.ok s') ∧
    ((s.pins p).mode = PinMode.UNSET →
      digitalRead s p = Except.error Err.NotConfigured) ∧
    ((s.pins p).mode ≠ PinMode.UNSET →
      digitalRead s p = Except.ok (s.pins p).lastLevel) := by
  refine ⟨fun h => ?_, fun h => ?_, fun h => ?_, fun h => ?_⟩
  · simp [digitalWrite, h]
  · refine ⟨{ s with pins := Function.update s.pins p { s.pins p with lastLevel := l } }, ?_⟩
    simp [digitalWrite, h]
  · simp [digitalRead, h]
  · simp [digitalRead, h]

/-- Witness for C5: on the unset pin 2 of `halBase` a write fails
`NotConfigured`, and on the OUTPUT pin 2 of `halOut` a read succeeds. -/
theorem digital_mode_guard_witness :
    (halBase.pins 2).mode ≠ PinMode.OUTPUT ∧
    digitalWrite halBase 2 PinLevel.HIGH = Except.error Err.NotConfigured ∧
    (halOut.pins 2).mode ≠ PinMode.UNSET ∧
    digitalRead halOut 2 = Except.ok (halOut.pins 2).lastLevel :=
  ⟨by decide, (digital_mode_guard halBase 2 PinLevel.HIGH).1 (by decide), by decide,
    (digital_mode_guard halOut 2 PinLevel.HIGH).2.2.2 (by decide)⟩

/-- Claim C7: `noAnalogWrite` is idempotent — a second call returns exactly
the state of the first — and called on a pin with no active channel it
succeeds and changes nothing at all (this model's admissible reading of the
intentionally unspecified line level is to leave the level untouched). -/
theorem noAnalogWrite_idempotent (s s₁ : Hal) (p : Nat) :
    (noAnalogWrite s p = Except.ok s₁ → noAnalogWrite s₁ p = Except.ok s₁) ∧
    (s.pwm p = none → noAnalogWrite s p = Except.ok s) := by
  constructor
  · intro h
    injection h with h
    subst h
    simp [noAnalogWrite, Function.update_idem]
  · intro h
    unfold noAnalogWrite
    rw [← h, Function.update_eq_self]

/-- Witness for C7: stopping pin 2's channel twice gives the state of the
first stop, and stopping idle pin 3 of the base state changes nothing. -/
theorem noAnalogWrite_idempotent_witness :
    noAnalogWrite halPwm0 2 = Except.ok halStopped ∧
    noAnalogWrite halStopped 2 = Except.ok halStopped ∧
    halBase.pwm 3 = none ∧
    noAnalogWrite halBase 3 = Except.ok halBase :=
  ⟨rfl, (noAnalogWrite_idempotent halPwm0 halStopped 2).1 rfl, rfl,
    (noAnalogWrite_idempotent halBase halBase 3).2 rfl⟩

theorem step_preserves_pwm (s : Hal) (op : GpioOp) (p : Nat)
    (h : touchesPwm op p = false) : (step s op).pwm p = s.pwm p := by
  cases op with
  | opPinMode q m =>
    have hq : p ≠ q := by simpa [touchesPwm, eq_comm] using h
    show (((pinMode s q m).toOption).getD s).pwm p = s.pwm p
    unfold pinMode
    split
    · rfl
    split
    · rfl
    · exact Function.update_noteq hq _ _
  | opDigitalWrite q l =>
    show (((digitalWrite s q l).toOption).getD s).pwm p = s.pwm p
    unfold digitalWrite
    split <;> rfl
  | opDigitalRead q => rfl
  | opAnalogWrite q d =>
    have hq : p ≠ q := by simpa [touchesPwm, eq_comm] using h
    show (((analogWrite s q d).toOption).getD s).pwm p = s.pwm p
    unfold analogWrite
    split
    · rfl
    split
    · rfl
    · exact Function.update_noteq hq _ _
  | opNoAnalogWrite q =>
    have hq : p ≠ q := by simpa [touchesPwm, eq_comm] using h
    show Function.update s.pwm q none p = s.pwm p
    exact Function.update_noteq hq _ _
  | opAttachInterrupt q e =>
    show (((attachInterrupt s q e).toOption).getD s).pwm p = s.pwm p
    unfold attachInterrupt
    split <;> rfl
  | opDetachInterrupt q => rfl

theorem run_preserves_pwm (ops : List GpioOp) (p : Nat) :
    ∀ s : Hal, (∀ op ∈ ops, touchesPwm op p = false) → (run s ops).pwm p = s.pwm p := by
  induction ops with
  | nil => intro s _; rfl
  | cons op ops ih =>
    intro s h
    have hstep : run s (op :: ops) = run (step s op) ops := rfl
    rw [hstep]
    exact (ih (step s op) (fun o ho => h o (List.mem_cons_of_mem _ ho))).trans
      (step_preserves_pwm s op p (h op (List.mem_cons_self op ops)))

theorem analogWrite_channel (s s₁ : Hal) (p d : Nat)
    (h : analogWrite s p d = Except.ok s₁) :
    s₁.pwm p = some { duty := d, periodMicros := defaultPeriodMicros, running := true } := by
  unfold analogWrite at h
  split at h
  · simp at h
  split at h
  · simp at h
  · injection h with h
    subst h
    simp [Function.update_same]

theorem observe_running (s : Hal) (p t : Nat) (ch : PwmChannel)
    (h : s.pwm p = some ch) (hr : ch.running = true) :
    observe s p t = pwmLevelAt ch.duty ch.periodMicros t := by
  unfold observe
  rw [h]
  simp [hr]

/-- Claim C2: after `analogWrite(p, 0)` the channel holds the line sustained
LOW — no sampling instant of any window observes HIGH — and after
`analogWrite(p, 255)` sustained HIGH with no toggling, and this persists
across any further sequence of API calls none of which stops the channel or
reconfigures the pin (`noAnalogWrite`, `analogWrite` or `pinMode` on `p`). -/
theorem pwm_extremes (s s₁ : Hal) (p : Nat) (ops : List GpioOp)
    (hops : ∀ op ∈ ops, touchesPwm op p = false) :
    (analogWrite s p 0 = Except.ok s₁ →
      ∀ t, observe (run s₁ ops) p t = PinLevel.LOW) ∧
    (analogWrite s p 255 = Except.ok s₁ →
      ∀ t, observe (run s₁ ops) p t = PinLevel.HIGH) := by
  constructor
  · intro h t
    have hch := (run_preserves_pwm ops p s₁ hops).trans (analogWrite_channel s s₁ p 0 h)
    rw [observe_running (run s₁ ops) p t _ hch rfl]
    simp [pwmLevelAt]
  · intro h t
    have hch := (run_preserves_pwm ops p s₁ hops).trans (analogWrite_channel s s₁ p 255 h)
    rw [observe_running (run s₁ ops) p t _ hch rfl]
    unfold pwmLevelAt defaultPeriodMicros
    norm_num
    intro hc
    exact absurd hc (Nat.not_le.mpr (Nat.mod_lt t (by norm_num)))

/-- Witness for C2: with the channel at duty 0 (resp. 255) on pin 2 and an
unrelated write on pin 3 in between, sampling at time 5 observes LOW
(resp. HIGH). -/
theorem pwm_extremes_witness :
    (∀ op ∈ [GpioOp.opDigitalWrite 3 PinLevel.HIGH], touchesPwm op 2 = false) ∧
    observe (run halPwm0 [GpioOp.opDigitalWrite 3 PinLevel.HIGH]) 2 5 = PinLevel.LOW ∧
    observe (run halPwm255 [GpioOp.opDigitalWrite 3 PinLevel.HIGH]) 2 5 = PinLevel.HIGH :=
  ⟨by decide,
    (pwm_extremes halOut halPwm0 2 [GpioOp.opDigitalWrite 3 PinLevel.HIGH] (by decide)).1
      rfl 5,
    (pwm_extremes halOut halPwm255 2 [GpioOp.opDigitalWrite 3 PinLevel.HIGH] (by decide)).2
      rfl 5⟩

/-- Claim C6: on each bus handle (Wire, SPI, Serial) every data operation
invoked before a successful `begin()` — and hence after `end()`, which
returns the handle to the closed state — fails with `NotInitialized` and
performs no device I/O (the error carries no new handle state), and a second
`begin()` on an already-open bus is the same defined behaviour for every bus
on every call: a no-op returning the handle unchanged. -/
theorem bus_fail_closed (w : WireState) (sp : SPIState) (se : SerialState)
    (bus : Nat → ProbeOutcome) (dev : Nat → List Nat) (sdev : Nat → Nat)
    (a b cnt d baud : Nat) (path msg : String) (stop : Bool) (delim : Char) :
    (w.isOpen = false →
      Wire.scanOp w bus = Except.error Err.NotInitialized ∧
      Wire.beginTransmission w a = Except.error Err.NotInitialized ∧
      Wire.write w b = Except.error Err.NotInitialized ∧
      Wire.endTransmission w stop = Except.error Err.NotInitialized ∧
      Wire.requestFrom w dev a cnt = Except.error Err.NotInitialized ∧
      Wire.read w = Except.error Err.NotInitialized) ∧
    (sp.isOpen = false →
      SPI.setClockDivider sp d = Except.error Err.NotInitialized ∧
      SPI.transfer sp sdev b = Except.error Err.NotInitialized) ∧
    (se.isOpen = false →
      Serial.print se msg = Except.error Err.NotInitialized ∧
      Serial.println se msg = Except.error Err.NotInitialized ∧
      Serial.available se = Except.error Err.NotInitialized ∧
      Serial.read se = Except.error Err.NotInitialized ∧
      Serial.readStringUntil se delim = Except.error Err.NotInitialized) ∧
    ((Wire.endOp w).isOpen = false ∧ (SPI.endOp sp).isOpen = false ∧
      (Serial.endOp se).isOpen = false) ∧
    (w.isOpen = true → Wire.beginOp w = Except.ok w) ∧
    (sp.isOpen = true → SPI.beginOp sp = Except.ok sp) ∧
    (se.isOpen = true → Serial.beginOp se baud path = Except.ok se) := by
  refine ⟨fun h => ?_, fun h => ?_, fun h => ?_, ⟨rfl, rfl, rfl⟩,
    fun h => ?_, fun h => ?_, fun h => ?_⟩ <;>
    simp [Wire.scanOp, Wire.beginTransmission, Wire.write, Wire.endTransmission,
      Wire.requestFrom, Wire.read, SPI.setClockDivider, SPI.transfer, Serial.print,
      Serial.println, Serial.available, Serial.read, Serial.readStringUntil,
      Wire.beginOp, SPI.beginOp, Serial.beginOp, h]

/-- Witness for C6: a closed Wire write and a closed Serial print fail
`NotInitialized`, and a second `begin()` on an open SPI handle is a no-op. -/
theorem bus_fail_closed_witness :
    wireClosed.isOpen = false ∧
    Wire.write wireClosed 7 = Except.error Err.NotInitialized ∧
    serialClosed.isOpen = false ∧
    Serial.print serialClosed "hello" = Except.error Err.NotInitialized ∧
    spiOpen.isOpen = true ∧
    SPI.beginOp spiOpen = Except.ok spiOpen :=
  ⟨rfl,
    ((bus_fail_closed wireClosed spiOpen serialClosed (fun _ => ProbeOutcome.nack)
      (fun _ => []) (fun x => x) 0 7 0 0 9600 "/dev/ttyUSB0" "hello" true 'x').1 rfl).2.2.1,
    rfl,
    ((bus_fail_closed wireClosed spiOpen serialClosed (fun _ => ProbeOutcome.nack)
      (fun _ => []) (fun x => x) 0 7 0 0 9600 "/dev/ttyUSB0" "hello" true 'x').2.2.1 rfl).1,
    rfl,
    (bus_fail_closed wireClosed spiOpen serialClosed (fun _ => ProbeOutcome.nack)
      (fun _ => []) (fun x => x) 0 7 0 0 9600 "/dev/ttyUSB0" "hello" true 'x').2.2.2.2.2.1 rfl⟩

/-- Claim C8: on an input whose only markdown link is a broken local link
resolving outside the repository root, `main` raises an uncaught
`ValueError` from `Path.relative_to` while building the missing-files
summary, instead of completing the report and returning exit code 1 — the
per-link report guards this conversion with `try/except`
(check_markdown_links.py:161-165), the summary loop does not (line 175).
The third conjunct shows the single broken record's target is indeed the
one whose conversion is undefined. -/
theorem main_summary_valueerror :
    mainResult repoC8 = Except.error PyExc.valueError ∧
    mainResult repoC8 ≠ Except.ok 1 ∧
    (allBroken repoC8).map (fun b => (relativeTo b.target repoC8.rootAbs).isNone) = [true] := by
  refine ⟨rfl, ?_, rfl⟩
  intro hc
  have h1 : mainResult repoC8 = Except.error PyExc.valueError := rfl
  rw [h1] at hc
  exact Except.noConfusion hc

theorem brokenOf_eq_none_iff (r : Repo) (f : MdFile) (tu : String × String) :
    brokenOf r f tu = none ↔
      ¬ ((resolve_link (fileAbs r f) tu.2).2 = "local" ∧
        ∃ t, (resolve_link (fileAbs r f) tu.2).1 = some t ∧ r.fileExists t = false) := by
  unfold brokenOf
  cases hres : resolve_link (fileAbs r f) tu.2 with
  | mk o tag =>
    cases o with
    | none => simp
    | some t =>
      by_cases htag : tag = "local"
      · by_cases hex : r.fileExists t <;> simp [htag, hex]
      · simp [htag]

theorem allBroken_eq_nil_iff (r : Repo) :
    allBroken r = [] ↔
      ∀ f ∈ r.mdFiles, ∀ tu ∈ extract_links f.content, brokenOf r f tu = none := by
  unfold allBroken brokenIn
  rw [List.flatten_eq_nil_iff]
  constructor
  · intro h f hf tu htu
    have h1 := h _ (List.mem_map.mpr ⟨f, hf, rfl⟩)
    rw [List.filterMap_eq_nil_iff] at h1
    exact h1 tu htu
  · intro h l hl
    obtain ⟨f, hf, rfl⟩ := List.mem_map.mp hl
    exact List.filterMap_eq_nil_iff.mpr (h f hf)

theorem relativeTo_append (root rest : AbsPath) :
    relativeTo (root ++ rest) root = some rest := by
  unfold relativeTo
  rw [if_pos (List.isPrefixOf_iff_prefix.mpr (List.prefix_append root rest))]
  simp

/-- Claim C9: provided every broken link's resolved target lies within the
repository root, `main` returns exit code 1 exactly when some visited
markdown file (the files under docs/ plus the top-level README) contains —
after fenced-code-block and inline-code removal — a link that resolves with
the local tag and whose resolved target does not exist, and returns 0
otherwise; external, mailto and anchor-only links resolve with other tags
and so never affect the exit code. -/
theorem main_exit_code (r : Repo)
    (hin : ∀ b ∈ allBroken r, (relativeTo b.target r.rootAbs).isSome = true) :
    (mainResult r = Except.ok 1 ↔
      ∃ f ∈ r.mdFiles, ∃ tu ∈ extract_links f.content,
        (resolve_link (fileAbs r f) tu.2).2 = "local" ∧
        ∃ t, (resolve_link (fileAbs r f) tu.2).1 = some t ∧ r.fileExists t = false) ∧
    (mainResult r = Except.ok 0 ↔
      ¬ ∃ f ∈ r.mdFiles, ∃ tu ∈ extract_links f.content,
        (resolve_link (fileAbs r f) tu.2).2 = "local" ∧
        ∃ t, (resolve_link (fileAbs r f) tu.2).1 = some t ∧ r.fileExists t = false) := by
  have hfirst : (allBroken r).any
      (fun b => (relativeTo (r.rootAbs ++ b.srcRel) r.rootAbs).isNone) = false :=
    List.any_eq_false.mpr (fun b _ => by simp [relativeTo_append])
  have hsecond : (allBroken r).any
      (fun b => (relativeTo b.target r.rootAbs).isNone) = false := by
    refine List.any_eq_false.mpr (fun b hb => ?_)
    have h1 := hin b hb
    cases ho : relativeTo b.target r.rootAbs with
    | none => rw [ho] at h1; simp at h1
    | some v => simp
  have hmain : mainResult r = if (allBroken r).isEmpty then Except.ok 0 else Except.ok 1 := by
    unfold mainResult
    rw [hfirst, hsecond]
    simp
  have hiff : ¬ (∃ f ∈ r.mdFiles, ∃ tu ∈ extract_links f.content,
      (resolve_link (fileAbs r f) tu.2).2 = "local" ∧
      ∃ t, (resolve_link (fileAbs r f) tu.2).1 = some t ∧ r.fileExists t = false) ↔
      allBroken r = [] := by
    rw [allBroken_eq_nil_iff]
    constructor
    · intro h f hf tu htu
      rw [brokenOf_eq_none_iff]
      intro hbad
      exact h ⟨f, hf, tu, htu, hbad⟩
    · intro h hc
      obtain ⟨f, hf, tu, htu, hbad⟩ := hc
      exact (brokenOf_eq_none_iff r f tu).mp (h f hf tu htu) hbad
  rw [hmain]
  by_cases hb : (allBroken r).isEmpty = true
  · rw [if_pos hb]
    have hcond := hiff.mpr (List.isEmpty_iff.mp hb)
    exact ⟨⟨fun h => absurd h (by simp), fun h => absurd h hcond⟩,
      ⟨fun _ => hcond, fun _ => rfl⟩⟩
  · rw [if_neg hb]
    have hcond : ∃ f ∈ r.mdFiles, ∃ tu ∈ extract_links f.content,
        (resolve_link (fileAbs r f) tu.2).2 = "local" ∧
        ∃ t, (resolve_link (fileAbs r f) tu.2).1 = some t ∧ r.fileExists t = false := by
      by_contra hc
      exact hb (List.isEmpty_iff.mpr (hiff.mp hc))
    exact ⟨⟨fun _ => hcond, fun _ => rfl⟩,
      ⟨fun h => absurd h (by simp), fun h => absurd hcond h⟩⟩

/-- Witness for C9: the single-page repository with one broken local link
inside the root (plus an external and an anchor-only link) satisfies the
within-root hypothesis and exits 1. -/
theorem main_exit_code_witness :
    (∀ b ∈ allBroken repoC9, (relativeTo b.target repoC9.rootAbs).isSome = true) ∧
    mainResult repoC9 = Except.ok 1 :=
  ⟨by decide,
    (main_exit_code repoC9 (by decide)).1.mpr
      ⟨{ relParts := ["docs", "a.md"]
       , content := "[a](missing.md) then [b](https://example.com/x) then [c](#frag)" },
        List.Mem.head _, ("a", "missing.md"), by decide, by decide,
        ["repo", "docs", "missing.md"], by decide, by decide⟩⟩

theorem splitOnCharAux_head (d : Char) :
    ∀ (cs acc : List Char),
      (splitOnCharAux d acc cs).headD [] =
        acc.reverse ++ cs.takeWhile (fun c => c ≠ d) := by
  intro cs
  induction cs with
  | nil => intro acc; simp [splitOnCharAux]
  | cons c cs ih =>
    intro acc
    by_cases hc : c = d
    · simp [splitOnCharAux, hc]
    · simp only [splitOnCharAux, if_neg hc, ih (c :: acc), List.reverse_cons,
        List.takeWhile_cons]
      simp [hc]

theorem stripAnchor_data (u : String) :
    (stripAnchor u).data = u.data.takeWhile (fun c => c ≠ '#') := by
  have h := splitOnCharAux_head '#' u.data []
  unfold stripAnchor
  cases hs : splitOnCharAux '#' [] u.data with
  | nil => rw [hs] at h; simpa using h.symm
  | cons s rest => rw [hs] at h; simpa using h

/-- Claim C10: `resolve_link` first strips the url at its first hash
character (the stripped url is the longest hash-free prefix); it returns
(none, "external") exactly when the stripped url starts with "http://",
"https://" or "ftp://"; otherwise (none, "mailto") exactly when it starts
with "mailto:"; otherwise (none, "anchor-only") exactly when the stripped
url is empty; and in all remaining cases it returns the stripped url
resolved against the source file's parent directory, tagged "local".  The
Lean embedding is total, so it never raises, and the last conjunct shows the
tag is always one of these four. -/
theorem resolve_link_cases (src : AbsPath) (u : String) :
    ((stripAnchor u).data = u.data.takeWhile (fun c => c ≠ '#')) ∧
    (resolve_link src u = (none, "external") ↔
      (strStartsWith (stripAnchor u) "http://" || strStartsWith (stripAnchor u) "https://" ||
        strStartsWith (stripAnchor u) "ftp://") = true) ∧
    (resolve_link src u = (none, "mailto") ↔
      ((strStartsWith (stripAnchor u) "http://" || strStartsWith (stripAnchor u) "https://" ||
        strStartsWith (stripAnchor u) "ftp://") = false ∧
        strStartsWith (stripAnchor u) "mailto:" = true)) ∧
    (resolve_link src u = (none, "anchor-only") ↔
      ((strStartsWith (stripAnchor u) "http://" || strStartsWith (stripAnchor u) "https://" ||
        strStartsWith (stripAnchor u) "ftp://") = false ∧
        strStartsWith (stripAnchor u) "mailto:" = false ∧
        stripAnchor u = "")) ∧
    (((strStartsWith (stripAnchor u) "http://" || strStartsWith (stripAnchor u) "https://" ||
        strStartsWith (stripAnchor u) "ftp://") = false ∧
        strStartsWith (stripAnchor u) "mailto:" = false ∧
        stripAnchor u ≠ "") →
      resolve_link src u =
        (some (resolvePath (pyJoin src.dropLast (stripAnchor u))), "local")) ∧
    ((resolve_link src u).2 = "external" ∨ (resolve_link src u).2 = "mailto" ∨
      (resolve_link src u).2 = "anchor-only" ∨ (resolve_link src u).2 = "local") := by
  refine ⟨stripAnchor_data u, ?_⟩
  simp only [resolve_link]
  by_cases h1 : (strStartsWith (stripAnchor u) "http://" ||
      strStartsWith (stripAnchor u) "https://" ||
      strStartsWith (stripAnchor u) "ftp://") = true
  · simp [h1]
  · rw [Bool.not_eq_true] at h1
    by_cases h2 : strStartsWith (stripAnchor u) "mailto:" = true
    · simp [h1, h2]
    · rw [Bool.not_eq_true] at h2
      by_cases h3 : stripAnchor u = ""
      · rw [h3] at h1 h2
        simp [h1, h2, h3]
      · simp [h1, h2, h3]

/-- Witness for C10: a relative link with an anchor from a docs page
satisfies none of the skip conditions and resolves locally against the
page's directory. -/
theorem resolve_link_cases_witness :
    ((strStartsWith (stripAnchor "guide.md#top") "http://" ||
      strStartsWith (stripAnchor "guide.md#top") "https://" ||
      strStartsWith (stripAnchor "guide.md#top") "ftp://") = false ∧
      strStartsWith (stripAnchor "guide.md#top") "mailto:" = false ∧
      stripAnchor "guide.md#top" ≠ "") ∧
    resolve_link ["repo", "docs", "a.md"] "guide.md#top" =
      (some ["repo", "docs", "guide.md"], "local") :=
  ⟨by decide,
    ((resolve_link_cases ["repo", "docs", "a.md"] "guide.md#top").2.2.2.2.1
      (by decide)).trans (by decide)⟩
